import Mathlib

/-!
Verification of soc/posix/inf_clock/soc.h (Zephyr POSIX inf_clock SoC header).

The header provides two facilities:
 1. the NATIVE_TASK lifecycle hook registration macro, the five phase level
    constants, and the run_native_tasks driver routine (declared here,
    defined elsewhere in the tree);
 2. the NRF_DT_GPIOS_TO_PSEL family of devicetree pin-select encoder macros.

Machine integers are modelled as Nat; the C expressions involved produce
small non-negative values, so no overflow reduction is needed.
-/

namespace InfClockSoc

/-- Devicetree accessor environment. `portOf node prop idx` models the value of
the C macro DT_PROP_BY_PHANDLE_IDX(node_id, prop, idx, port), `pinOf` models
DT_GPIO_PIN_BY_IDX(node_id, prop, idx), and `hasProp` models
DT_NODE_HAS_PROP(node_id, prop) (1 when the node has the property). Node and
property identities are coded as naturals. -/
structure DTSpec where
  portOf : Nat → Nat → Nat → Nat
  pinOf : Nat → Nat → Nat → Nat
  hasProp : Nat → Nat → Bool

/-- soc.h lines 99-101:
((DT_PROP_BY_PHANDLE_IDX(node_id, prop, idx, port) << 5) |
 (DT_GPIO_PIN_BY_IDX(node_id, prop, idx) & 0x1F)). -/
def NRF_DT_GPIOS_TO_PSEL_BY_IDX (dt : DTSpec) (node_id prop idx : Nat) : Nat :=
  (dt.portOf node_id prop idx <<< 5) ||| (dt.pinOf node_id prop idx &&& 0x1F)

/-- soc.h line 106 (first declaration):
NRF_DT_GPIOS_TO_PSEL_BY_IDX(node_id, prop, 0). -/
def NRF_DT_GPIOS_TO_PSEL (dt : DTSpec) (node_id prop : Nat) : Nat :=
  NRF_DT_GPIOS_TO_PSEL_BY_IDX dt node_id prop 0

/-- soc.h line 111 (second, textually identical declaration of the same macro;
kept as a separate definition so the duplication can be stated). -/
def NRF_DT_GPIOS_TO_PSEL_redecl (dt : DTSpec) (node_id prop : Nat) : Nat :=
  NRF_DT_GPIOS_TO_PSEL_BY_IDX dt node_id prop 0

/-- soc.h lines 120-122:
COND_CODE_1(DT_NODE_HAS_PROP(node_id, prop),
            (NRF_DT_GPIOS_TO_PSEL(node_id, prop)), (default_value)). -/
def NRF_DT_GPIOS_TO_PSEL_OR (dt : DTSpec) (node_id prop default_value : Nat) : Nat :=
  if dt.hasProp node_id prop then NRF_DT_GPIOS_TO_PSEL dt node_id prop else default_value

/-- Node handle for the example node `foo` of the soc.h doc comment. -/
def fooNode : Nat := 0

/-- Property id for tx-gpios = <&gpio0 4 ...> in the soc.h doc comment. -/
def tx_gpios : Nat := 0

/-- Property id for rx-gpios = <&gpio0 5 ...>, <&gpio1 5 ...> in the soc.h
doc comment. -/
def rx_gpios : Nat := 1

/-- Devicetree of the soc.h doc comment example: node foo has tx-gpios on
port 0 pin 4, and rx-gpios index 0 on port 0 pin 5, index 1 on port 1 pin 5. -/
def dtFoo : DTSpec where
  portOf := fun _ prop idx => if prop = 1 ∧ idx = 1 then 1 else 0
  pinOf := fun _ prop _ => if prop = 0 then 4 else 5
  hasProp := fun node prop => decide (node = 0 ∧ (prop = 0 ∨ prop = 1))

/-- The bit-level expression of the encoder equals plain arithmetic:
(port << 5) | (pin & 0x1F) = 32 * port + pin % 32, for all port and pin. -/
theorem psel_arith (port pin : Nat) :
    (port <<< 5) ||| (pin &&& 0x1F) = 32 * port + pin % 32 := by
  have h1 : pin &&& 0x1F = pin % 32 := by
    have h := Nat.and_pow_two_sub_one_eq_mod pin 5
    norm_num at h
    exact h
  have h2 : (port <<< 5) = 2 ^ 5 * port := by
    rw [Nat.shiftLeft_eq, Nat.mul_comm]
  have h3 : pin % 32 < 2 ^ 5 := by
    have h := Nat.mod_lt pin (y := 32) (by norm_num)
    simpa using h
  calc (port <<< 5) ||| (pin &&& 0x1F)
      = 2 ^ 5 * port ||| (pin % 32) := by rw [h1, h2]
    _ = 2 ^ 5 * port + pin % 32 := (Nat.mul_add_lt_is_or h3 port).symm
    _ = 32 * port + pin % 32 := by norm_num

/-- C1: for every port in \x7b0,1\x7d and pin in [0,31], the pin-select encoder
NRF_DT_GPIOS_TO_PSEL_BY_IDX yields (port << 5) | (pin & 0x1F) = 32*port + pin;
in particular (port,pin) = (0,4) yields 4 and (1,5) yields 37 (the doc-comment
example devicetree dtFoo). -/
theorem psel_by_idx_correct :
    (∀ (dt : DTSpec) (node_id prop idx : Nat),
        dt.portOf node_id prop idx ≤ 1 → dt.pinOf node_id prop idx ≤ 31 →
        NRF_DT_GPIOS_TO_PSEL_BY_IDX dt node_id prop idx =
          32 * dt.portOf node_id prop idx + dt.pinOf node_id prop idx) ∧
    NRF_DT_GPIOS_TO_PSEL_BY_IDX dtFoo fooNode tx_gpios 0 = 4 ∧
    NRF_DT_GPIOS_TO_PSEL_BY_IDX dtFoo fooNode rx_gpios 1 = 37 := by
  refine ⟨?_, by decide, by decide⟩
  intro dt node_id prop idx hport hpin
  rw [NRF_DT_GPIOS_TO_PSEL_BY_IDX, psel_arith]
  have h : dt.pinOf node_id prop idx % 32 = dt.pinOf node_id prop idx :=
    Nat.mod_eq_of_lt (by omega)
  rw [h]

theorem psel_by_idx_correct_witness :
    NRF_DT_GPIOS_TO_PSEL_BY_IDX dtFoo fooNode rx_gpios 1 =
      32 * dtFoo.portOf fooNode rx_gpios 1 + dtFoo.pinOf fooNode rx_gpios 1 :=
  psel_by_idx_correct.1 dtFoo fooNode rx_gpios 1 (by decide) (by decide)

/-- C4: for accessor-supplied values (port in [0,1], pin in [0,31]) the encoded
PSEL value is in [0,63], its low five bits (value mod 32) are the pin and its
bit 5 (value div 32) is the port. -/
theorem psel_value_range (dt : DTSpec) (node_id prop idx : Nat)
    (hport : dt.portOf node_id prop idx ≤ 1) (hpin : dt.pinOf node_id prop idx ≤ 31) :
    NRF_DT_GPIOS_TO_PSEL_BY_IDX dt node_id prop idx ≤ 63 ∧
    NRF_DT_GPIOS_TO_PSEL_BY_IDX dt node_id prop idx % 32 = dt.pinOf node_id prop idx ∧
    NRF_DT_GPIOS_TO_PSEL_BY_IDX dt node_id prop idx / 32 = dt.portOf node_id prop idx := by
  rw [NRF_DT_GPIOS_TO_PSEL_BY_IDX, psel_arith]
  omega

theorem psel_value_range_witness :
    NRF_DT_GPIOS_TO_PSEL_BY_IDX dtFoo fooNode rx_gpios 1 ≤ 63 ∧
    NRF_DT_GPIOS_TO_PSEL_BY_IDX dtFoo fooNode rx_gpios 1 % 32 =
      dtFoo.pinOf fooNode rx_gpios 1 ∧
    NRF_DT_GPIOS_TO_PSEL_BY_IDX dtFoo fooNode rx_gpios 1 / 32 =
      dtFoo.portOf fooNode rx_gpios 1 :=
  psel_value_range dtFoo fooNode rx_gpios 1 (by decide) (by decide)

/-- C6: the convenience form NRF_DT_GPIOS_TO_PSEL(node_id, prop) yields the
same value as NRF_DT_GPIOS_TO_PSEL_BY_IDX(node_id, prop, 0). -/
theorem psel_defaults_idx_zero (dt : DTSpec) (node_id prop : Nat) :
    NRF_DT_GPIOS_TO_PSEL dt node_id prop =
      NRF_DT_GPIOS_TO_PSEL_BY_IDX dt node_id prop 0 := rfl

/-- C8: the two textually identical declarations of NRF_DT_GPIOS_TO_PSEL
(soc.h lines 106 and 111) denote the same function. -/
theorem psel_redecl_same (dt : DTSpec) (node_id prop : Nat) :
    NRF_DT_GPIOS_TO_PSEL dt node_id prop =
      NRF_DT_GPIOS_TO_PSEL_redecl dt node_id prop := rfl

/-- C5: NRF_DT_GPIOS_TO_PSEL_OR yields the PSEL-encoded value when the node
has the property and the caller-supplied default otherwise; when the property
exists the default argument does not influence the result. -/
theorem psel_or_guard (dt : DTSpec) (node_id prop d : Nat) :
    (dt.hasProp node_id prop = true →
        NRF_DT_GPIOS_TO_PSEL_OR dt node_id prop d =
          NRF_DT_GPIOS_TO_PSEL dt node_id prop) ∧
    (dt.hasProp node_id prop = false →
        NRF_DT_GPIOS_TO_PSEL_OR dt node_id prop d = d) ∧
    (∀ d2, dt.hasProp node_id prop = true →
        NRF_DT_GPIOS_TO_PSEL_OR dt node_id prop d =
          NRF_DT_GPIOS_TO_PSEL_OR dt node_id prop d2) := by
  refine ⟨fun h => ?_, fun h => ?_, fun d2 h => ?_⟩ <;>
    simp [NRF_DT_GPIOS_TO_PSEL_OR, h]

theorem psel_or_guard_witness :
    NRF_DT_GPIOS_TO_PSEL_OR dtFoo fooNode tx_gpios 99 =
      NRF_DT_GPIOS_TO_PSEL dtFoo fooNode tx_gpios ∧
    NRF_DT_GPIOS_TO_PSEL_OR dtFoo fooNode 2 99 = 99 :=
  ⟨(psel_or_guard dtFoo fooNode tx_gpios 99).1 (by decide),
   (psel_or_guard dtFoo fooNode 2 99).2.1 (by decide)⟩

/-- C10: the pin contribution to the encoded value is pin mod 32 (a pin of 32
or more wraps), while the port is shifted in without any masking. -/
theorem psel_pin_masked_port_unmasked (dt : DTSpec) (node_id prop idx : Nat) :
    NRF_DT_GPIOS_TO_PSEL_BY_IDX dt node_id prop idx =
      32 * dt.portOf node_id prop idx + dt.pinOf node_id prop idx % 32 :=
  psel_arith _ _

/-- The five lifecycle phases of soc.h (the NATIVE_TASK doc comment,
lines 20-44). -/
inductive Phase where
  | PRE_BOOT_1
  | PRE_BOOT_2
  | PRE_BOOT_3
  | FIRST_SLEEP
  | ON_EXIT
deriving DecidableEq

def _NATIVE_PRE_BOOT_1_LEVEL : Nat := 0

def _NATIVE_PRE_BOOT_2_LEVEL : Nat := 1

def _NATIVE_PRE_BOOT_3_LEVEL : Nat := 2

def _NATIVE_FIRST_SLEEP_LEVEL : Nat := 3

def _NATIVE_ON_EXIT_LEVEL : Nat := 4

/-- The integer level of a phase, the _NATIVE_*_LEVEL constants of soc.h
lines 51-55. -/
def Phase.level : Phase → Nat
  | .PRE_BOOT_1 => _NATIVE_PRE_BOOT_1_LEVEL
  | .PRE_BOOT_2 => _NATIVE_PRE_BOOT_2_LEVEL
  | .PRE_BOOT_3 => _NATIVE_PRE_BOOT_3_LEVEL
  | .FIRST_SLEEP => _NATIVE_FIRST_SLEEP_LEVEL
  | .ON_EXIT => _NATIVE_ON_EXIT_LEVEL

/-- A hook record: the (phase, priority, function) triple that one NATIVE_TASK
registration contributes. Functions are coded by a natural identifier since
the hooks take no parameters and return nothing. -/
structure HookRecord where
  phase : Phase
  prio : Nat
  fn : Nat
deriving DecidableEq

/-- Program state visible to the registration mechanism: the registration list
(the .native_<level><prio>_task linker sections, in registration order) and
the trace of function calls made so far. -/
structure SocState where
  regs : List HookRecord
  calls : List Nat
deriving DecidableEq

/-- NATIVE_TASK(fn, level, prio), soc.h lines 45-48: declares a static pointer
to fn placed in section .native_<level><prio>_task. Modelled as appending one
(level, prio, fn) record to the registration list; the declaration performs no
call, so the call trace is untouched. -/
def NATIVE_TASK (s : SocState) (f : Nat) (level : Phase) (prio : Nat) : SocState :=
  { s with regs := s.regs ++ [⟨level, prio, f⟩] }

/-- The registered records for a level, each tagged with its registration
index so that two registrations of the same function stay distinct records. -/
def taggedHooks (regs : List HookRecord) (level : Nat) : List (Nat × HookRecord) :=
  regs.enum.filter (fun t => t.2.phase.level == level)

/-- Hook ordering: ascending priority, and registration order among equal
priorities (the stable order the linker gives the sections). -/
def hookLE (a b : Nat × HookRecord) : Prop :=
  a.2.prio < b.2.prio ∨ (a.2.prio = b.2.prio ∧ a.1 ≤ b.1)

instance : DecidableRel hookLE := fun a b =>
  inferInstanceAs (Decidable (a.2.prio < b.2.prio ∨ (a.2.prio = b.2.prio ∧ a.1 ≤ b.1)))

instance : IsTotal (Nat × HookRecord) hookLE :=
  ⟨by intro a b; rw [hookLE, hookLE]; omega⟩

instance : IsTrans (Nat × HookRecord) hookLE :=
  ⟨by intro a b c; rw [hookLE, hookLE, hookLE]; omega⟩

/-- Modelled from the spec: the body of run_native_tasks is not part of this
tree (soc.h line 62 only declares it). Per the spec, the driver invokes every
hook registered for the given level, in ascending priority with stable
(registration) order among equal priorities, and returns after all complete.
The returned list is the complete invocation sequence. -/
def run_native_tasks (regs : List HookRecord) (level : Nat) : List (Nat × HookRecord) :=
  List.insertionSort hookLE (taggedHooks regs level)

/-- Registration list for a small concrete scenario: two PRE_BOOT_1 hooks,
registered with priorities 2 then 1. -/
def demoRegs : List HookRecord :=
  [⟨Phase.PRE_BOOT_1, 2, 10⟩, ⟨Phase.PRE_BOOT_1, 1, 11⟩]

/-- C2: if hooks x and y both appear in the invocation sequence of a level and
x has lower priority, x is invoked first; among equal priorities the earlier
registration (smaller registration index) is invoked first. -/
theorem run_native_tasks_priority_order (regs : List HookRecord) (level : Nat)
    (a b : Nat) (x y : Nat × HookRecord)
    (hx : (run_native_tasks regs level).get? a = some x)
    (hy : (run_native_tasks regs level).get? b = some y) :
    (x.2.prio < y.2.prio → a < b) ∧
    (x.2.prio = y.2.prio → x.1 < y.1 → a < b) := by
  have hs : (run_native_tasks regs level).Sorted hookLE :=
    List.sorted_insertionSort hookLE _
  obtain ⟨ha, hxa⟩ := List.get?_eq_some.mp hx
  obtain ⟨hb, hyb⟩ := List.get?_eq_some.mp hy
  have key : b < a ∨ b = a → hookLE y x ∨ x = y := by
    rintro (hba | rfl)
    · left
      have h := hs.rel_get_of_lt (a := ⟨b, hb⟩) (b := ⟨a, ha⟩) hba
      rwa [hxa, hyb] at h
    · right
      rw [← hxa, ← hyb]
  constructor
  · intro hlt
    by_contra hab
    rcases key (by omega) with h | h
    · rw [hookLE] at h; omega
    · rw [h] at hlt; omega
  · intro hpr hreg
    by_contra hab
    rcases key (by omega) with h | h
    · rw [hookLE] at h; omega
    · rw [h] at hreg; omega

theorem run_native_tasks_priority_order_witness : (0 : Nat) < 1 :=
  (run_native_tasks_priority_order demoRegs 0 0 1
    (1, ⟨Phase.PRE_BOOT_1, 1, 11⟩) (0, ⟨Phase.PRE_BOOT_1, 2, 10⟩)
    (by decide) (by decide)).1 (by decide)

/-- C3: a call of run_native_tasks for a level invokes exactly the hooks
registered for that level, each exactly once: a tagged record occurs once in
the invocation sequence when it is a registration for the level, never
otherwise; the sequence is the complete trace of the call, so the call ends
only after every such hook has run. -/
theorem run_native_tasks_exactly_once (regs : List HookRecord) (level : Nat) :
    List.Perm (run_native_tasks regs level) (taggedHooks regs level) ∧
    (taggedHooks regs level).Nodup ∧
    ∀ t : Nat × HookRecord,
      t ∈ run_native_tasks regs level ↔ t ∈ regs.enum ∧ t.2.phase.level = level := by
  have hperm : List.Perm (run_native_tasks regs level) (taggedHooks regs level) :=
    List.perm_insertionSort hookLE (taggedHooks regs level)
  have hnd : regs.enum.Nodup := (List.nodup_enum_map_fst regs).of_map Prod.fst
  refine ⟨hperm, hnd.filter _, fun t => ?_⟩
  rw [hperm.mem_iff, taggedHooks, List.mem_filter]
  simp

/-- The five phases in documented timeline order. -/
def phaseList : List Phase :=
  [.PRE_BOOT_1, .PRE_BOOT_2, .PRE_BOOT_3, .FIRST_SLEEP, .ON_EXIT]

/-- C7: the five phase labels map to the integer levels 0..4 in documented
timeline order (so the labels are totally ordered by their levels), and every
hook record's phase is exactly one of the five labels. -/
theorem phase_levels_ordered :
    Phase.PRE_BOOT_1.level = _NATIVE_PRE_BOOT_1_LEVEL ∧
    Phase.PRE_BOOT_2.level = _NATIVE_PRE_BOOT_2_LEVEL ∧
    Phase.PRE_BOOT_3.level = _NATIVE_PRE_BOOT_3_LEVEL ∧
    Phase.FIRST_SLEEP.level = _NATIVE_FIRST_SLEEP_LEVEL ∧
    Phase.ON_EXIT.level = _NATIVE_ON_EXIT_LEVEL ∧
    phaseList.map Phase.level = [0, 1, 2, 3, 4] ∧
    (Phase.PRE_BOOT_1.level < Phase.PRE_BOOT_2.level ∧
     Phase.PRE_BOOT_2.level < Phase.PRE_BOOT_3.level ∧
     Phase.PRE_BOOT_3.level < Phase.FIRST_SLEEP.level ∧
     Phase.FIRST_SLEEP.level < Phase.ON_EXIT.level) ∧
    ∀ r : HookRecord, List.count r.phase phaseList = 1 := by
  refine ⟨rfl, rfl, rfl, rfl, rfl, by decide, by decide, ?_⟩
  intro r
  obtain ⟨p, prio, f⟩ := r
  cases p <;> rfl

/-- C9: registering a hook is purely a declaration. It leaves the call trace
unchanged, appends exactly the one new record, and registering the same
function twice appends two records, raising that record's count by two. -/
theorem NATIVE_TASK_is_declaration (s : SocState) (f : Nat) (level : Phase)
    (prio : Nat) :
    (NATIVE_TASK s f level prio).calls = s.calls ∧
    (NATIVE_TASK s f level prio).regs = s.regs ++ [⟨level, prio, f⟩] ∧
    (NATIVE_TASK (NATIVE_TASK s f level prio) f level prio).regs =
      s.regs ++ [⟨level, prio, f⟩, ⟨level, prio, f⟩] ∧
    List.count (⟨level, prio, f⟩ : HookRecord)
        (NATIVE_TASK (NATIVE_TASK s f level prio) f level prio).regs =
      List.count (⟨level, prio, f⟩ : HookRecord) s.regs + 2 := by
  refine ⟨rfl, rfl, by simp [NATIVE_TASK], ?_⟩
  simp [NATIVE_TASK, List.count_append]

end InfClockSoc
